import Mathlib

/-!
Shallow embedding of the realtime chat client's synchronization core
(message reconciliation in `ChatWindow.tsx`, connection/reconnect and frame
decoding in `useWebSocket`, roster maintenance in `Sidebar`).

Modelling conventions:
* ISO-8601 `created_at` strings are modelled by their epoch value (`Int`);
  every use site in the source immediately converts them with
  `new Date(x).getTime()` and only ever compares the resulting numbers.
* Optional TS fields (`string | undefined`) are `Option String`; the
  optional boolean `is_online` defaults to `false`, matching its use as a
  JS truthiness test.
* Each `setState` updater is embedded as a pure function from the previous
  state to the next; the interleavings permitted by the single-threaded
  event loop are modelled by composing these updaters in every order the
  suspension points allow.
-/

namespace RTChat

/-- `User` from `types/index.ts` (the fields the synchronization core reads). -/
structure User where
  id : String
  email : String
  username : String
  is_active : Bool
  is_verified : Bool
  is_superuser : Bool
  is_online : Bool := false
  deriving DecidableEq, Repr

/-- `Message` from `types/index.ts`; `created_at` is the epoch value of the
ISO timestamp string. -/
structure Message where
  id : String
  content : String
  sender_id : String
  receiver_id : Option String
  group_id : Option String
  media_url : Option String
  media_type : Option String
  is_read : Bool
  created_at : Int
  sender : Option User
  deriving DecidableEq, Repr

/-- The comparator `(a, b) => new Date(a.created_at).getTime() - new Date(b.created_at).getTime()`
used by every `.sort` call on message lists: ascending by creation time. -/
def msgLe (a b : Message) : Prop := a.created_at ≤ b.created_at

instance : DecidableRel msgLe := fun a b =>
  inferInstanceAs (Decidable (a.created_at ≤ b.created_at))

instance : IsTotal Message msgLe := ⟨fun a b => Int.le_total a.created_at b.created_at⟩

instance : IsTrans Message msgLe := ⟨fun _ _ _ hab hbc => le_trans hab hbc⟩

/-- `Array.prototype.sort` with the ascending `created_at` comparator.
JS `sort` is required to be stable, and the stable sort of a list under a
total preorder is unique; insertion sort realizes it.  No theorem below
depends on tie order. -/
def sortByCreatedAt (l : List Message) : List Message :=
  l.insertionSort msgLe

namespace ChatWindow

/-- The guard in `ChatWindow.handleWebSocketMessage` (lines 55-58): the frame
belongs to the open conversation iff it travels between the current user and
the selected counterpart (either direction).  `userId` is `null`-able, and
`currentUser?.id` is `undefined` when no user is loaded.  The leading
`userId &&` is a JS truthiness test, so the empty string also fails it. -/
def isForThisChat (userId : Option String) (currentUserId : Option String)
    (message : Message) : Bool :=
  match userId with
  | none => false
  | some uid =>
      !(uid == "") &&
      ((message.receiver_id == some uid && some message.sender_id == currentUserId) ||
       (message.sender_id == uid && message.receiver_id == currentUserId))

/-- The `setMessages` updater inside `ChatWindow.handleWebSocketMessage`
(lines 63-76): drop the frame if an entry with the same id exists, otherwise
append and re-sort by `created_at`. -/
def insertArrived (message : Message) (prev : List Message) : List Message :=
  if prev.any (fun m => m.id == message.id) then prev
  else sortByCreatedAt (prev ++ [message])

/-- `ChatWindow.handleWebSocketMessage` (lines 44-86): apply `insertArrived`
only when the frame is for the open conversation. -/
def handleWebSocketMessage (userId currentUserId : Option String)
    (message : Message) (prev : List Message) : List Message :=
  if isForThisChat userId currentUserId message then insertArrived message prev
  else prev

/-- The optimistic-insert `setMessages` updater in `sendMessage`
(lines 204-209): append the placeholder unless its id is already present. -/
def optimisticInsert (optimisticMessage : Message) (prev : List Message) :
    List Message :=
  if prev.any (fun m => m.id == optimisticMessage.id) then prev
  else prev ++ [optimisticMessage]

/-- The success `setMessages` updater in `sendMessage` (lines 218-229):
remove the placeholder by its id, then insert the server-confirmed message
only if no entry with the confirmed id is already present (a realtime push
may have added it while the request was in flight), re-sorting on insert. -/
def confirmSend (tempId : String) (newMessage : Message) (prev : List Message) :
    List Message :=
  let withoutTemp := prev.filter (fun m => !(m.id == tempId))
  if withoutTemp.any (fun m => m.id == newMessage.id) then withoutTemp
  else sortByCreatedAt (withoutTemp ++ [newMessage])

/-- `m.id.startsWith('temp-')`, the placeholder tag test used by the failure
rollback (line 241).  Expressed on the character lists underlying `String`. -/
def startsWithTemp (s : String) : Bool :=
  "temp-".data.isPrefixOf s.data

/-- The failure `setMessages` updater in `sendMessage` (line 241): remove
every entry whose id carries the placeholder tag. -/
def rollbackSend (prev : List Message) : List Message :=
  prev.filter (fun m => !startsWithTemp m.id)

/-- Position of the realtime push for the server-confirmed message relative
to the two `setMessages` steps of a successful `sendMessage`:
the single-threaded event loop can run `handleWebSocketMessage` before the
optimistic insert, between it and the HTTP confirmation, after the
confirmation, or the push may not be delivered at all. -/
inductive PushPos
  | beforeInsert
  | beforeConfirm
  | afterConfirm
  | noPush
  deriving DecidableEq, Repr

/-- One complete successful send of the logical message: optimistic insert of
the placeholder, then `confirmSend` with the server-confirmed message, with
the realtime push (carrying the same confirmed message) interleaved at
position `pos`. -/
def sendRun (pos : PushPos) (userId currentUserId : Option String)
    (tempMsg serverMsg : Message) (l0 : List Message) : List Message :=
  match pos with
  | .beforeInsert =>
      confirmSend tempMsg.id serverMsg
        (optimisticInsert tempMsg
          (handleWebSocketMessage userId currentUserId serverMsg l0))
  | .beforeConfirm =>
      confirmSend tempMsg.id serverMsg
        (handleWebSocketMessage userId currentUserId serverMsg
          (optimisticInsert tempMsg l0))
  | .afterConfirm =>
      handleWebSocketMessage userId currentUserId serverMsg
        (confirmSend tempMsg.id serverMsg (optimisticInsert tempMsg l0))
  | .noPush =>
      confirmSend tempMsg.id serverMsg (optimisticInsert tempMsg l0)

/-- Number of entries of `l` bearing id `x`. -/
def countId (x : String) (l : List Message) : Nat :=
  l.countP (fun m => m.id == x)

/-- The ChatWindow state a send touches: the message list and the text
input.  UI-only flags (`isSending`, `isUploading`, scroll position) are not
modelled. -/
structure ChatState where
  messages : List Message
  messageText : String
  deriving DecidableEq, Repr

/-- Outcome of the media-upload step (lines 170-186): no file selected,
upload resolved, or upload rejected. -/
inductive UploadOutcome
  | noFile
  | ok (url contentType : String)
  | failed
  deriving DecidableEq, Repr

/-- Outcome of the backend submission (lines 213-215). -/
inductive SendOutcome
  | ok (serverMsg : Message)
  | failed
  deriving DecidableEq, Repr

/-- Result of one `sendMessage` run: the final state, plus the content
transmitted to the backend (`none` when no submission was made). -/
structure SendAttemptResult where
  state : ChatState
  submitted : Option String
  deriving DecidableEq, Repr

/-- The body of `ChatWindow.sendMessage` (lines 157-245), parameterized by
the outcomes of its two suspension points and by the realtime pushes the
event loop delivers while the HTTP request is in flight.
`messageContent` is `messageText.trim()` captured at line 160; `tempMsg` is
the placeholder of lines 189-201, whose id is `temp-${Date.now()}`.
Control flow: the input is cleared first (line 161); a failed upload
returns from the inner catch (lines 177-182) before the optimistic insert
and before any backend call, never reaching the outer catch that restores
the input; otherwise the placeholder is appended, the content submitted,
and the run ends in `confirmSend` (success) or in the outer catch
(restore input, drop placeholder entries). -/
def sendMessage (userId currentUserId : Option String) (messageContent : String)
    (upload : UploadOutcome) (tempMsg : Message) (send : SendOutcome)
    (arrivals : List Message) (st : ChatState) : SendAttemptResult :=
  let st1 : ChatState := { st with messageText := "" }
  match upload with
  | .failed => { state := st1, submitted := none }
  | _ =>
      let afterInsert := optimisticInsert tempMsg st1.messages
      let inFlight := arrivals.foldl
        (fun l m => handleWebSocketMessage userId currentUserId m l) afterInsert
      match send with
      | .ok serverMsg =>
          { state := { messages := confirmSend tempMsg.id serverMsg inFlight
                       messageText := "" }
            submitted := some messageContent }
      | .failed =>
          { state := { messages := rollbackSend inFlight
                       messageText := messageContent }
            submitted := some messageContent }

/-- The operations that mutate a conversation's message list: a realtime
arrival, the optimistic-insert step of a send, the confirmation step of a
successful send, and the failure rollback. -/
inductive ChatOp
  | arrive (userId currentUserId : Option String) (m : Message)
  | optInsert (m : Message)
  | confirm (tempId : String) (m : Message)
  | rollback
  deriving DecidableEq, Repr

/-- Apply one list operation. -/
def applyChatOp (l : List Message) : ChatOp → List Message
  | .arrive userId currentUserId m => handleWebSocketMessage userId currentUserId m l
  | .optInsert m => optimisticInsert m l
  | .confirm tempId m => confirmSend tempId m l
  | .rollback => rollbackSend l

/-- Apply a finite sequence of list operations. -/
def applyChatOps (l : List Message) (ops : List ChatOp) : List Message :=
  ops.foldl applyChatOp l

/-- An operation is timestamp-safe in state `l` when an optimistic insert
only appends a placeholder no older than everything present (the placeholder
is stamped with the local clock, so this holds whenever no already-listed
message carries a timestamp in the local future). -/
def stepSafe (l : List Message) : ChatOp → Bool
  | .optInsert m => l.all (fun x => x.created_at ≤ m.created_at)
  | _ => true

/-- Every step of the sequence is timestamp-safe in the state it runs in. -/
def safeOps (l : List Message) : List ChatOp → Bool
  | [] => true
  | op :: ops => stepSafe l op && safeOps (applyChatOp l op) ops

/-- The ids of a message list are pairwise distinct. -/
def idsNodup (l : List Message) : Prop :=
  (l.map (fun m => m.id)).Nodup

/-- The list is non-decreasing by creation timestamp. -/
def chronological (l : List Message) : Prop :=
  l.Sorted msgLe

instance (l : List Message) : Decidable (idsNodup l) := by
  unfold idsNodup
  infer_instance

instance (l : List Message) : Decidable (chronological l) := by
  unfold chronological
  infer_instance

end ChatWindow

namespace WS

/-- The mutable connection-manager state kept in `useWebSocket`:
`reconnectAttemptsRef.current`. -/
structure WSState where
  attempts : Nat
  deriving DecidableEq, Repr

/-- `maxReconnectAttempts` (useWebSocket line 16). -/
def maxReconnectAttempts : Nat := 5

/-- The reconnect decision in `ws.onclose` (useWebSocket lines 142-153):
on a closure with code ≠ 1000 while fewer than `maxReconnectAttempts`
attempts were made, increment the attempt counter and schedule a reconnect
after `min(3000 * attempts, 30000)` ms; otherwise schedule nothing.
Returns the new state and the scheduled delay, if any. -/
def onClose (code : Nat) (s : WSState) : WSState × Option Nat :=
  if code ≠ 1000 ∧ s.attempts < maxReconnectAttempts then
    let a := s.attempts + 1
    (⟨a⟩, some (min (3000 * a) 30000))
  else
    (s, none)

/-- `ws.onopen` (useWebSocket lines 65-73): a successful handshake resets
the attempt counter to zero. -/
def onOpen (_ : WSState) : WSState := ⟨0⟩

/-- Process a sequence of closure codes, collecting the scheduled reconnect
delay (or `none`) for each closure. -/
def runCloses (codes : List Nat) (s : WSState) : WSState × List (Option Nat) :=
  match codes with
  | [] => (s, [])
  | c :: cs =>
      let step := onClose c s
      let rest := runCloses cs step.1
      (rest.1, step.2 :: rest.2)

/-- A decoded realtime frame as the `ws.onmessage` handler sees the parsed
JSON (useWebSocket lines 89-121).  It carries every field the handler reads;
`is_read` stands for any read-state field the server might include, which
the handler never consults.  `message` is the detail of an `error` frame. -/
structure RawFrame where
  type : String
  id : String
  content : String
  sender_id : String
  receiver_id : Option String
  group_id : Option String
  media_url : Option String
  media_type : Option String
  created_at : Int
  sender : Option User
  is_read : Bool
  user_id : String
  is_online : Bool
  message : String
  deriving DecidableEq, Repr

/-- The typed events the handler fans out to its subscribers: the
`onMessage` callback and the optional `onOnlineStatus` callback. -/
inductive DomainEvent
  | messageArrived (m : Message)
  | onlineStatus (userId : String) (isOnline : Bool)
  deriving DecidableEq, Repr

/-- The `Message` object built from a `type === 'message'` frame
(useWebSocket lines 96-107): every frame field is copied through except the
read flag, which is set to `false` unconditionally. -/
def decodeMessageFrame (f : RawFrame) : Message :=
  { id := f.id
    content := f.content
    sender_id := f.sender_id
    receiver_id := f.receiver_id
    group_id := f.group_id
    media_url := f.media_url
    media_type := f.media_type
    is_read := false
    created_at := f.created_at
    sender := f.sender }

/-- The dispatch decision of `ws.onmessage` (useWebSocket lines 94-117):
`message` frames dispatch `messageArrived`; `online_status` frames dispatch
to the online-status subscriber when one is registered; `pong` frames and
`error` frames are only logged (`console.log` / `console.error`) and
dispatch nothing; any other `type` falls through with no dispatch. -/
def decodeFrame (hasOnlineHandler : Bool) (f : RawFrame) : Option DomainEvent :=
  if f.type == "message" then
    some (.messageArrived (decodeMessageFrame f))
  else if f.type == "online_status" && hasOnlineHandler then
    some (.onlineStatus f.user_id f.is_online)
  else if f.type == "pong" then
    none
  else if f.type == "error" then
    none
  else
    none

end WS

namespace Sidebar

/-- `ChatContact` from `Sidebar` (part_002 lines 13-18). -/
structure ChatContact where
  id : String
  user : User
  lastMessage : Option Message
  unreadCount : Nat
  deriving DecidableEq, Repr

/-- The roster comparator (part_002 lines 157-165): descending by
last-message time, entries without a last message ordered last.
`contactLe a b` holds when the JS comparator returns a value ≤ 0. -/
def contactLe (a b : ChatContact) : Bool :=
  match a.lastMessage, b.lastMessage with
  | none, none => true
  | none, some _ => false
  | some _, none => true
  | some x, some y => y.created_at ≤ x.created_at

/-- `updated.sort(comparator)` on the roster. -/
def sortContacts (l : List ChatContact) : List ChatContact :=
  l.insertionSort (fun a b => contactLe a b = true)

/-- The unread-reset effect (part_002 lines 48-59): when a counterpart is
selected as the active conversation, every roster entry with that id has
its unread count set to 0. -/
def clearUnreadOnSelect (selectedUserId : String) (contacts : List ChatContact) :
    List ChatContact :=
  contacts.map (fun contact =>
    if contact.id == selectedUserId then { contact with unreadCount := 0 }
    else contact)

/-- The counterpart of a message (part_002 lines 86-87) combined with the
`if (!contactId) return` guard of lines 89-92: the receiver when the
current user sent it, otherwise the sender; `undefined` and the empty
string are both JS-falsy and make the handler return without touching the
roster, encoded here as `none`. -/
def contactIdOf (currentUserId : Option String) (m : Message) : Option String :=
  match (if some m.sender_id == currentUserId then m.receiver_id else some m.sender_id) with
  | none => none
  | some s => if s == "" then none else some s

/-- `updated[existingContactIndex] = f(...)` after `findIndex`: replace the
first element satisfying `p` by its image under `f`. -/
def updateFirst (p : ChatContact → Bool) (f : ChatContact → ChatContact) :
    List ChatContact → List ChatContact
  | [] => []
  | x :: xs => if p x then f x :: xs else x :: updateFirst p f xs

/-- The placeholder `User` synthesized when an inbound message carries no
sender snapshot (part_002 lines 172-179). -/
def fallbackUser (uid : String) : User :=
  { id := uid, email := "", username := "", is_active := true,
    is_verified := false, is_superuser := false }

/-- The `setContacts` updater of `Sidebar.handleWebSocketMessage`
(part_002 lines 94-251).  For an existing roster entry: replace its last
message only when the incoming timestamp is ≥ the stored one (the
"newer or equal" branch, lines 122-139), bump the unread count for inbound
unread messages while the entry is not selected (both branches), and
re-sort.  For an unknown counterpart: synthesize an entry from the sender
snapshot (the asynchronous identity fetch of lines 182-208 patches `user`
later and is not part of this updater).  `onlineUsers` is the tracked
online-set consulted for the `is_online` overlay. -/
def handleWebSocketMessage (currentUserId selectedUserId : Option String)
    (onlineUsers : Finset String) (message : Message)
    (prev : List ChatContact) : List ChatContact :=
  match contactIdOf currentUserId message with
  | none => prev
  | some contactId =>
    match prev.find? (fun contact => contact.id == contactId) with
    | some existingContact =>
        let isUnread := !(some message.sender_id == currentUserId) && !message.is_read
        let isSelected := selectedUserId == some contactId
        let currentLastMessageTime : Int :=
          match existingContact.lastMessage with
          | some lm => lm.created_at
          | none => 0
        let newMessageTime := message.created_at
        let isNewerMessage := currentLastMessageTime ≤ newMessageTime
        let updated :=
          if isNewerMessage ∨ newMessageTime = currentLastMessageTime then
            updateFirst (fun contact => contact.id == contactId)
              (fun contact =>
                { contact with
                  lastMessage := some message
                  unreadCount :=
                    if isUnread && !isSelected then contact.unreadCount + 1
                    else if isSelected then 0
                    else contact.unreadCount }) prev
          else if isUnread && !isSelected then
            updateFirst (fun contact => contact.id == contactId)
              (fun contact => { contact with unreadCount := contact.unreadCount + 1 })
              prev
          else prev
        sortContacts updated
    | none =>
        let otherUserInfo : Option User :=
          if some message.sender_id == currentUserId then none
          else some (match message.sender with
                     | some u => u
                     | none => fallbackUser message.sender_id)
        let isUnread := !(some message.sender_id == currentUserId) && !message.is_read
        let isSelected := selectedUserId == some contactId
        let newContact : ChatContact :=
          { id := contactId
            user :=
              match otherUserInfo with
              | some u => { u with is_online := contactId ∈ onlineUsers }
              | none => { fallbackUser contactId with is_online := contactId ∈ onlineUsers }
            lastMessage := some message
            unreadCount := if isUnread && !isSelected then 1 else 0 }
        sortContacts (prev ++ [newContact])

/-- The Sidebar state touched by presence events: the tracked online-set
and the roster. -/
structure SidebarState where
  onlineUsers : Finset String
  contacts : List ChatContact
  deriving DecidableEq

/-- `Sidebar.handleOnlineStatus` (part_002 lines 257-283): add or remove
the identity from the online-set according to the flag, and overwrite the
online flag of every roster entry for that identity. -/
def handleOnlineStatus (userId : String) (isOnline : Bool)
    (s : SidebarState) : SidebarState :=
  { onlineUsers :=
      if isOnline then insert userId s.onlineUsers
      else s.onlineUsers.erase userId
    contacts :=
      s.contacts.map (fun contact =>
        if contact.user.id == userId then
          { contact with user := { contact.user with is_online := isOnline } }
        else contact) }

end Sidebar

/-! ### Concrete example values used by witnesses and counterexamples -/

namespace Ex

/-- A server-confirmed message from `u1` to `u2`. -/
def serverMsg : Message :=
  { id := "m1", content := "hi", sender_id := "u1", receiver_id := some "u2",
    group_id := none, media_url := none, media_type := none,
    is_read := false, created_at := 105, sender := none }

/-- The optimistic placeholder for the same logical message. -/
def tempMsg : Message :=
  { id := "temp-100", content := "hi", sender_id := "u1", receiver_id := some "u2",
    group_id := none, media_url := none, media_type := none,
    is_read := false, created_at := 100, sender := none }

/-- An inbound realtime message from `u2` to `u1` stamped at 100. -/
def inboundMsg : Message :=
  { id := "a", content := "x", sender_id := "u2", receiver_id := some "u1",
    group_id := none, media_url := none, media_type := none,
    is_read := false, created_at := 100, sender := none }

/-- A placeholder stamped at 50, older than `inboundMsg`: the local clock
lags the server timestamp of an already-received push. -/
def latePlaceholder : Message :=
  { id := "temp-50", content := "y", sender_id := "u1", receiver_id := some "u2",
    group_id := none, media_url := none, media_type := none,
    is_read := false, created_at := 50, sender := none }

/-- An inbound realtime message delivered while a send is in flight. -/
def inFlightMsg : Message :=
  { id := "m9", content := "z", sender_id := "u2", receiver_id := some "u1",
    group_id := none, media_url := none, media_type := none,
    is_read := false, created_at := 102, sender := none }

/-- A user snapshot for `u2`. -/
def u2 : User :=
  { id := "u2", email := "u2@x", username := "u2", is_active := true,
    is_verified := false, is_superuser := false }

/-- A roster entry for `u2` whose stored last message is `inboundMsg`
(timestamp 100) with 2 unread messages. -/
def contactU2 : Sidebar.ChatContact :=
  { id := "u2", user := u2, lastMessage := some inboundMsg, unreadCount := 2 }

/-- An older inbound message from `u2`, stamped before `inboundMsg`. -/
def olderMsg : Message :=
  { id := "old1", content := "w", sender_id := "u2", receiver_id := some "u1",
    group_id := none, media_url := none, media_type := none,
    is_read := false, created_at := 40, sender := none }

/-- A raw `error` frame as decoded from the wire. -/
def errorFrame : WS.RawFrame :=
  { type := "error", id := "", content := "", sender_id := "",
    receiver_id := none, group_id := none, media_url := none,
    media_type := none, created_at := 0, sender := none, is_read := false,
    user_id := "", is_online := false, message := "boom" }

/-- A raw `message` frame that carries `is_read = true` from the server. -/
def readMessageFrame : WS.RawFrame :=
  { type := "message", id := "m7", content := "hey", sender_id := "u2",
    receiver_id := some "u1", group_id := none, media_url := none,
    media_type := none, created_at := 64, sender := none, is_read := true,
    user_id := "", is_online := false, message := "" }

/-- `contactU2` after `inFlightMsg` (inbound, unread, stamped 102) is
processed while `u2` is not the active conversation. -/
def updatedContactU2 : Sidebar.ChatContact :=
  { contactU2 with lastMessage := some inFlightMsg, unreadCount := 3 }

/-- `contactU2` the instant `u2` is selected as active. -/
def clearedContactU2 : Sidebar.ChatContact :=
  { contactU2 with unreadCount := 0 }

/-- `contactU2` after the out-of-order `olderMsg` is processed: the unread
count is bumped but the stored last message is untouched. -/
def bumpedContactU2 : Sidebar.ChatContact :=
  { contactU2 with unreadCount := 3 }

end Ex

/-! ### Auxiliary lemmas about the list operations -/

namespace ChatWindow

theorem countId_sortByCreatedAt (x : String) (l : List Message) :
    countId x (sortByCreatedAt l) = countId x l :=
  (List.perm_insertionSort msgLe l).countP_eq _

theorem countId_append_singleton (x : String) (l : List Message) (m : Message) :
    countId x (l ++ [m]) = countId x l + (if m.id = x then 1 else 0) := by
  simp [countId, List.countP_append, List.countP_cons]

theorem countId_eq_zero_of_forall {x : String} {l : List Message}
    (h : ∀ m ∈ l, m.id ≠ x) : countId x l = 0 := by
  rw [countId, List.countP_eq_zero]
  intro m hm
  simpa using h m hm

theorem any_id_eq_false_of_forall {x : String} {l : List Message}
    (h : ∀ m ∈ l, m.id ≠ x) : l.any (fun m => m.id == x) = false := by
  rw [List.any_eq_false]
  intro m hm
  simpa using h m hm

theorem any_id_eq_true_of_exists {x : String} {l : List Message}
    (h : ∃ m ∈ l, m.id = x) : l.any (fun m => m.id == x) = true := by
  rw [List.any_eq_true]
  obtain ⟨m, hm, hx⟩ := h
  exact ⟨m, hm, by simpa using hx⟩

theorem exists_of_countId_pos {x : String} {l : List Message}
    (h : 0 < countId x l) : ∃ m ∈ l, m.id = x := by
  rw [countId, List.countP_pos_iff] at h
  obtain ⟨m, hm, hx⟩ := h
  exact ⟨m, hm, by simpa using hx⟩

theorem filter_ne_id_eq_self {tempId : String} {l : List Message}
    (h : ∀ m ∈ l, m.id ≠ tempId) :
    l.filter (fun m => !(m.id == tempId)) = l := by
  rw [List.filter_eq_self]
  intro m hm
  simpa using h m hm

theorem countId_filter_ne (tempId x : String) (l : List Message) :
    countId x (l.filter (fun m => !(m.id == tempId))) =
      if x = tempId then 0 else countId x l := by
  induction l with
  | nil => simp [countId]
  | cons a l ih =>
      by_cases ha : a.id = tempId
      · by_cases hx : x = tempId
        · simp only [countId, List.filter_cons, ha, hx] at *
          simp [ih]
        · have hax : a.id ≠ x := by rw [ha]; exact fun h => hx h.symm
          simp only [countId, List.filter_cons] at *
          simp [ha, hx, hax, List.countP_cons, ih, beq_iff_eq]
          exact fun h => hx h.symm
      · by_cases hx : x = tempId
        · have hax : a.id ≠ x := by rw [hx]; exact ha
          simp only [countId, List.filter_cons] at *
          simp [ha, hx, hax, List.countP_cons, ih, beq_iff_eq]
        · simp only [countId, List.filter_cons] at *
          simp [ha, hx, List.countP_cons, ih, beq_iff_eq]

theorem mem_filter_ne_of_mem {tempId : String} {l : List Message} {m : Message}
    (hm : m ∈ l) (hne : m.id ≠ tempId) :
    m ∈ l.filter (fun a => !(a.id == tempId)) := by
  rw [List.mem_filter]
  exact ⟨hm, by simpa using hne⟩

/-- C1: for every interleaving of the optimistic insert, the realtime push
carrying the server-confirmed message, and the HTTP confirmation of the
same logical message, after `sendMessage` completes successfully the
conversation list contains exactly one entry bearing the server-confirmed
id and no entry with the temporary placeholder id. -/
theorem claim_C1
    (pos : PushPos) (userId currentUserId : Option String)
    (tempMsg serverMsg : Message) (l0 : List Message)
    (hguard : isForThisChat userId currentUserId serverMsg = true)
    (hne : serverMsg.id ≠ tempMsg.id)
    (h0t : ∀ m ∈ l0, m.id ≠ tempMsg.id)
    (h0s : ∀ m ∈ l0, m.id ≠ serverMsg.id) :
    countId serverMsg.id (sendRun pos userId currentUserId tempMsg serverMsg l0) = 1 ∧
    countId tempMsg.id (sendRun pos userId currentUserId tempMsg serverMsg l0) = 0 := by
  have hs0 : countId serverMsg.id l0 = 0 := countId_eq_zero_of_forall h0s
  have ht0 : countId tempMsg.id l0 = 0 := countId_eq_zero_of_forall h0t
  cases pos with
  | noPush =>
      rw [sendRun]
      rw [optimisticInsert, if_neg (by rw [any_id_eq_false_of_forall h0t]; simp)]
      rw [confirmSend]
      have hfil : (l0 ++ [tempMsg]).filter (fun m => !(m.id == tempMsg.id)) = l0 := by
        rw [List.filter_append, filter_ne_id_eq_self h0t]
        simp
      simp only [hfil]
      rw [if_neg (by rw [any_id_eq_false_of_forall h0s]; simp)]
      constructor
      · rw [countId_sortByCreatedAt, countId_append_singleton, hs0, if_pos rfl]
      · rw [countId_sortByCreatedAt, countId_append_singleton, ht0,
          if_neg hne]
  | beforeInsert =>
      rw [sendRun, handleWebSocketMessage, if_pos hguard]
      rw [insertArrived, if_neg (by rw [any_id_eq_false_of_forall h0s]; simp)]
      set l1 := sortByCreatedAt (l0 ++ [serverMsg]) with hl1
      have hcs : countId serverMsg.id l1 = 1 := by
        rw [hl1, countId_sortByCreatedAt, countId_append_singleton, hs0, if_pos rfl]
      have hct : countId tempMsg.id l1 = 0 := by
        rw [hl1, countId_sortByCreatedAt, countId_append_singleton, ht0, if_neg hne]
      have h1t : ∀ m ∈ l1, m.id ≠ tempMsg.id := by
        intro m hm heq
        have : 0 < countId tempMsg.id l1 := by
          rw [countId, List.countP_pos_iff]
          exact ⟨m, hm, by simpa using heq⟩
        omega
      rw [optimisticInsert, if_neg (by rw [any_id_eq_false_of_forall h1t]; simp)]
      rw [confirmSend]
      have hfil : (l1 ++ [tempMsg]).filter (fun m => !(m.id == tempMsg.id)) = l1 := by
        rw [List.filter_append, filter_ne_id_eq_self h1t]
        simp
      simp only [hfil]
      have hany : l1.any (fun m => m.id == serverMsg.id) = true := by
        apply any_id_eq_true_of_exists
        exact exists_of_countId_pos (by omega)
      rw [if_pos hany]
      exact ⟨hcs, hct⟩
  | beforeConfirm =>
      rw [sendRun]
      rw [optimisticInsert, if_neg (by rw [any_id_eq_false_of_forall h0t]; simp)]
      rw [handleWebSocketMessage, if_pos hguard]
      have h1s : ∀ m ∈ l0 ++ [tempMsg], m.id ≠ serverMsg.id := by
        intro m hm
        rcases List.mem_append.mp hm with h | h
        · exact h0s m h
        · simp only [List.mem_singleton] at h
          subst h
          exact fun he => hne he.symm
      rw [insertArrived, if_neg (by rw [any_id_eq_false_of_forall h1s]; simp)]
      set l2 := sortByCreatedAt ((l0 ++ [tempMsg]) ++ [serverMsg]) with hl2
      have hcs : countId serverMsg.id l2 = 1 := by
        rw [hl2, countId_sortByCreatedAt, countId_append_singleton,
          countId_append_singleton, hs0, if_neg (fun he => hne he.symm), if_pos rfl]
      have hct : countId tempMsg.id l2 = 1 := by
        rw [hl2, countId_sortByCreatedAt, countId_append_singleton,
          countId_append_singleton, ht0, if_pos rfl, if_neg hne]
      rw [confirmSend]
      have hcs' : countId serverMsg.id
          (l2.filter (fun m => !(m.id == tempMsg.id))) = 1 := by
        rw [countId_filter_ne, if_neg (fun he => hne he)]
        exact hcs
      have hct' : countId tempMsg.id
          (l2.filter (fun m => !(m.id == tempMsg.id))) = 0 := by
        rw [countId_filter_ne, if_pos rfl]
      have hany : (l2.filter (fun m => !(m.id == tempMsg.id))).any
          (fun m => m.id == serverMsg.id) = true := by
        apply any_id_eq_true_of_exists
        exact exists_of_countId_pos (by omega)
      rw [if_pos hany]
      exact ⟨hcs', hct'⟩
  | afterConfirm =>
      rw [sendRun]
      rw [optimisticInsert, if_neg (by rw [any_id_eq_false_of_forall h0t]; simp)]
      rw [confirmSend]
      have hfil : (l0 ++ [tempMsg]).filter (fun m => !(m.id == tempMsg.id)) = l0 := by
        rw [List.filter_append, filter_ne_id_eq_self h0t]
        simp
      simp only [hfil]
      rw [if_neg (by rw [any_id_eq_false_of_forall h0s]; simp)]
      set l2 := sortByCreatedAt (l0 ++ [serverMsg]) with hl2
      have hcs : countId serverMsg.id l2 = 1 := by
        rw [hl2, countId_sortByCreatedAt, countId_append_singleton, hs0, if_pos rfl]
      have hct : countId tempMsg.id l2 = 0 := by
        rw [hl2, countId_sortByCreatedAt, countId_append_singleton, ht0, if_neg hne]
      rw [handleWebSocketMessage, if_pos hguard]
      have hany : l2.any (fun m => m.id == serverMsg.id) = true := by
        apply any_id_eq_true_of_exists
        exact exists_of_countId_pos (by omega)
      rw [insertArrived, if_pos hany]
      exact ⟨hcs, hct⟩

/-- Witness for C1 at a concrete interleaving: the push for `m1` lands
between the optimistic insert and the HTTP confirmation. -/
theorem claim_C1_witness :
    countId "m1"
        (sendRun .beforeConfirm (some "u2") (some "u1") Ex.tempMsg Ex.serverMsg []) = 1 ∧
    countId "temp-100"
        (sendRun .beforeConfirm (some "u2") (some "u1") Ex.tempMsg Ex.serverMsg []) = 0 :=
  claim_C1 .beforeConfirm (some "u2") (some "u1") Ex.tempMsg Ex.serverMsg []
    (by decide) (by decide) (by decide) (by decide)

/-! ### C2: id uniqueness and chronological order -/

theorem chronological_sortByCreatedAt (l : List Message) :
    chronological (sortByCreatedAt l) :=
  List.sorted_insertionSort msgLe l

theorem idsNodup_sortByCreatedAt {l : List Message} (h : idsNodup l) :
    idsNodup (sortByCreatedAt l) := by
  unfold idsNodup sortByCreatedAt at *
  exact (((List.perm_insertionSort msgLe l).map (fun m => m.id)).nodup_iff).mpr h

theorem idsNodup_append_singleton {l : List Message} {m : Message}
    (h : idsNodup l) (hm : ∀ x ∈ l, x.id ≠ m.id) : idsNodup (l ++ [m]) := by
  unfold idsNodup at *
  rw [List.map_append, List.map_singleton]
  rw [List.nodup_append]
  refine ⟨h, List.nodup_singleton _, ?_⟩
  intro a ha hb
  simp only [List.mem_singleton] at hb
  obtain ⟨x, hx, hxa⟩ := List.mem_map.mp ha
  exact hm x hx (hxa.trans hb)

theorem idsNodup_filter {p : Message → Bool} {l : List Message}
    (h : idsNodup l) : idsNodup (l.filter p) :=
  List.Nodup.sublist ((l.filter_sublist).map (fun m => m.id)) h

theorem chronological_filter {p : Message → Bool} {l : List Message}
    (h : chronological l) : chronological (l.filter p) :=
  List.Pairwise.sublist l.filter_sublist h

theorem chronological_append_singleton {l : List Message} {m : Message}
    (h : chronological l) (hm : ∀ x ∈ l, x.created_at ≤ m.created_at) :
    chronological (l ++ [m]) := by
  unfold chronological List.Sorted at *
  rw [List.pairwise_append]
  refine ⟨h, List.pairwise_singleton _ _, ?_⟩
  intro a ha b hb
  simp only [List.mem_singleton] at hb
  subst hb
  exact hm a ha

theorem forall_ne_of_any_eq_false {x : String} {l : List Message}
    (h : l.any (fun m => m.id == x) = false) : ∀ m ∈ l, m.id ≠ x := by
  rw [List.any_eq_false] at h
  intro m hm
  simpa using h m hm

/-- Every single list operation preserves id uniqueness, and preserves
chronological order when the step is timestamp-safe. -/
theorem applyChatOp_invariant (l : List Message) (op : ChatOp)
    (hn : idsNodup l) (hc : chronological l) (hs : stepSafe l op = true) :
    idsNodup (applyChatOp l op) ∧ chronological (applyChatOp l op) := by
  cases op with
  | arrive userId currentUserId m =>
      rw [applyChatOp, handleWebSocketMessage]
      by_cases hg : isForThisChat userId currentUserId m = true
      · rw [if_pos hg, insertArrived]
        by_cases hany : l.any (fun a => a.id == m.id) = true
        · rw [if_pos hany]; exact ⟨hn, hc⟩
        · rw [if_neg hany]
          have hfa := forall_ne_of_any_eq_false (Bool.of_not_eq_true hany)
          exact ⟨idsNodup_sortByCreatedAt (idsNodup_append_singleton hn hfa),
            chronological_sortByCreatedAt _⟩
      · rw [if_neg hg]; exact ⟨hn, hc⟩
  | optInsert m =>
      rw [applyChatOp, optimisticInsert]
      by_cases hany : l.any (fun a => a.id == m.id) = true
      · rw [if_pos hany]; exact ⟨hn, hc⟩
      · rw [if_neg hany]
        have hfa := forall_ne_of_any_eq_false (Bool.of_not_eq_true hany)
        have hts : ∀ x ∈ l, x.created_at ≤ m.created_at := by
          rw [stepSafe, List.all_eq_true] at hs
          intro x hx
          exact of_decide_eq_true (hs x hx)
        exact ⟨idsNodup_append_singleton hn hfa,
          chronological_append_singleton hc hts⟩
  | confirm tempId m =>
      rw [applyChatOp, confirmSend]
      have hn' : idsNodup (l.filter (fun a => !(a.id == tempId))) := idsNodup_filter hn
      have hc' : chronological (l.filter (fun a => !(a.id == tempId))) :=
        chronological_filter hc
      by_cases hany :
          (l.filter (fun a => !(a.id == tempId))).any (fun a => a.id == m.id) = true
      · rw [if_pos hany]; exact ⟨hn', hc'⟩
      · rw [if_neg hany]
        have hfa := forall_ne_of_any_eq_false (Bool.of_not_eq_true hany)
        exact ⟨idsNodup_sortByCreatedAt (idsNodup_append_singleton hn' hfa),
          chronological_sortByCreatedAt _⟩
  | rollback =>
      rw [applyChatOp, rollbackSend]
      exact ⟨idsNodup_filter hn, chronological_filter hc⟩

/-- Every single list operation preserves id uniqueness unconditionally:
all four operations either leave the list unchanged, remove entries, or
insert only after the duplicate-id check failed. -/
theorem applyChatOp_idsNodup (l : List Message) (op : ChatOp)
    (hn : idsNodup l) : idsNodup (applyChatOp l op) := by
  cases op with
  | arrive userId currentUserId m =>
      rw [applyChatOp, handleWebSocketMessage]
      by_cases hg : isForThisChat userId currentUserId m = true
      · rw [if_pos hg, insertArrived]
        by_cases hany : l.any (fun a => a.id == m.id) = true
        · rw [if_pos hany]; exact hn
        · rw [if_neg hany]
          exact idsNodup_sortByCreatedAt (idsNodup_append_singleton hn
            (forall_ne_of_any_eq_false (Bool.of_not_eq_true hany)))
      · rw [if_neg hg]; exact hn
  | optInsert m =>
      rw [applyChatOp, optimisticInsert]
      by_cases hany : l.any (fun a => a.id == m.id) = true
      · rw [if_pos hany]; exact hn
      · rw [if_neg hany]
        exact idsNodup_append_singleton hn
          (forall_ne_of_any_eq_false (Bool.of_not_eq_true hany))
  | confirm tempId m =>
      rw [applyChatOp, confirmSend]
      have hn' : idsNodup (l.filter (fun a => !(a.id == tempId))) := idsNodup_filter hn
      by_cases hany :
          (l.filter (fun a => !(a.id == tempId))).any (fun a => a.id == m.id) = true
      · rw [if_pos hany]; exact hn'
      · rw [if_neg hany]
        exact idsNodup_sortByCreatedAt (idsNodup_append_singleton hn'
          (forall_ne_of_any_eq_false (Bool.of_not_eq_true hany)))
  | rollback =>
      rw [applyChatOp, rollbackSend]
      exact idsNodup_filter hn

/-- Id uniqueness survives any finite operation sequence, safe or not. -/
theorem applyChatOps_idsNodup (ops : List ChatOp) :
    ∀ l0, idsNodup l0 → idsNodup (applyChatOps l0 ops) := by
  induction ops with
  | nil => exact fun l0 hn => hn
  | cons op ops ih =>
      exact fun l0 hn => ih (applyChatOp l0 op) (applyChatOp_idsNodup l0 op hn)

/-- Both invariants survive a timestamp-safe operation sequence. -/
theorem applyChatOps_invariant (ops : List ChatOp) :
    ∀ l0, idsNodup l0 → chronological l0 → safeOps l0 ops = true →
      idsNodup (applyChatOps l0 ops) ∧ chronological (applyChatOps l0 ops) := by
  induction ops with
  | nil => exact fun l0 hn hc _ => ⟨hn, hc⟩
  | cons op ops ih =>
      intro l0 hn hc hsafe
      rw [safeOps, Bool.and_eq_true] at hsafe
      have hstep := applyChatOp_invariant l0 op hn hc hsafe.1
      exact ih (applyChatOp l0 op) hstep.1 hstep.2 hsafe.2

/-- C2 as stated is false: the optimistic-insert step appends the
placeholder at the tail without re-sorting, so a placeholder stamped by a
lagging local clock lands after a newer pushed message.  Concretely: from
the empty list, a realtime arrival stamped 100 followed by an optimistic
insert stamped 50 leaves the list out of chronological order. -/
theorem claim_C2_counterexample :
    ¬ chronological (applyChatOps []
      [ChatOp.arrive (some "u2") (some "u1") Ex.inboundMsg,
       ChatOp.optInsert Ex.latePlaceholder]) := by
  decide

/-- C2 (amended): after any finite sequence of arrivals, optimistic
inserts, confirmations and rollbacks starting from a list with unique ids
in chronological order, ids stay pairwise distinct — unconditionally; and
chronological order is also preserved provided every optimistic insert
carries a timestamp no older than what is already listed (`safeOps`). -/
theorem claim_C2 (l0 : List Message) (ops : List ChatOp)
    (hn : idsNodup l0) (hc : chronological l0) :
    idsNodup (applyChatOps l0 ops) ∧
    (safeOps l0 ops = true → chronological (applyChatOps l0 ops)) :=
  ⟨applyChatOps_idsNodup ops l0 hn,
   fun hsafe => (applyChatOps_invariant ops l0 hn hc hsafe).2⟩

/-- Witness for C2: id uniqueness holds even on the unsafe out-of-order
sequence of the counterexample, and on a concrete safe sequence (arrival
stamped 100, optimistic insert stamped 100, confirmation stamped 105, then
rollback) chronological order holds as well. -/
theorem claim_C2_witness :
    idsNodup (applyChatOps []
      [ChatOp.arrive (some "u2") (some "u1") Ex.inboundMsg,
       ChatOp.optInsert Ex.latePlaceholder]) ∧
    idsNodup (applyChatOps []
      [ChatOp.arrive (some "u2") (some "u1") Ex.inboundMsg,
       ChatOp.optInsert Ex.tempMsg,
       ChatOp.confirm "temp-100" Ex.serverMsg,
       ChatOp.rollback]) ∧
    chronological (applyChatOps []
      [ChatOp.arrive (some "u2") (some "u1") Ex.inboundMsg,
       ChatOp.optInsert Ex.tempMsg,
       ChatOp.confirm "temp-100" Ex.serverMsg,
       ChatOp.rollback]) :=
  ⟨(claim_C2 []
      [ChatOp.arrive (some "u2") (some "u1") Ex.inboundMsg,
       ChatOp.optInsert Ex.latePlaceholder]
      (by decide) (by decide)).1,
   (claim_C2 []
      [ChatOp.arrive (some "u2") (some "u1") Ex.inboundMsg,
       ChatOp.optInsert Ex.tempMsg,
       ChatOp.confirm "temp-100" Ex.serverMsg,
       ChatOp.rollback]
      (by decide) (by decide)).1,
   (claim_C2 []
      [ChatOp.arrive (some "u2") (some "u1") Ex.inboundMsg,
       ChatOp.optInsert Ex.tempMsg,
       ChatOp.confirm "temp-100" Ex.serverMsg,
       ChatOp.rollback]
      (by decide) (by decide)).2 (by decide)⟩

end ChatWindow

/-! ### C3: reconnect backoff -/

namespace WS

/-- After a run of unexpected closures starting with `a` prior attempts,
closure number `i+1` schedules a reconnect after
`min(3000 * (attempts so far + 1), 30000)` ms while the counter is below
the maximum, and schedules nothing afterwards. -/
theorem runCloses_spec (codes : List Nat) (a : Nat)
    (h : ∀ c ∈ codes, c ≠ 1000) :
    (runCloses codes ⟨a⟩).2 =
      (List.range codes.length).map
        (fun i => if a + i < maxReconnectAttempts
                  then some (min (3000 * (a + i + 1)) 30000) else none) := by
  induction codes generalizing a with
  | nil => simp [runCloses]
  | cons c cs ih =>
      have hc : c ≠ 1000 := h c (List.mem_cons_self c cs)
      have hcs : ∀ x ∈ cs, x ≠ 1000 := fun x hx => h x (List.mem_cons_of_mem c hx)
      simp only [runCloses, List.length_cons, List.range_succ_eq_map,
        List.map_cons, List.map_map]
      by_cases ha : a < maxReconnectAttempts
      · rw [onClose, if_pos ⟨hc, ha⟩]
        simp only [ih (a + 1) hcs]
        refine (List.cons_eq_cons).mpr ⟨?_, ?_⟩
        · simp [ha]
        · apply List.map_congr_left
          intro i _
          simp only [Function.comp_apply]
          have : a + 1 + i = a + (i + 1) := by omega
          rw [this]
      · rw [onClose, if_neg (fun hcontra => ha hcontra.2)]
        simp only [ih a hcs]
        refine (List.cons_eq_cons).mpr ⟨?_, ?_⟩
        · simp [ha]
        · apply List.map_congr_left
          intro i _
          simp only [Function.comp_apply]
          have h1 : ¬ a + (i + 1) < maxReconnectAttempts := by
            unfold maxReconnectAttempts at *
            omega
          have h2 : ¬ a + i < maxReconnectAttempts := by
            unfold maxReconnectAttempts at *
            omega
          rw [if_neg h1, if_neg h2]

/-- C3: for every sequence of unexpected (non-1000) closures, reconnect
attempt `n` (1 ≤ n ≤ 5) is scheduled after exactly `min(3000*n, 30000)` ms,
and every closure after the fifth consecutive failure schedules no further
reconnect. -/
theorem claim_C3 (codes : List Nat) (h : ∀ c ∈ codes, c ≠ 1000) :
    (runCloses codes ⟨0⟩).2 =
      (List.range codes.length).map
        (fun i => if i + 1 ≤ 5 then some (min (3000 * (i + 1)) 30000) else none) := by
  rw [runCloses_spec codes 0 h]
  apply List.map_congr_left
  intro i _
  unfold maxReconnectAttempts
  simp only [Nat.zero_add]
  by_cases hi : i < 5
  · rw [if_pos hi, if_pos (by omega)]
  · rw [if_neg hi, if_neg (by omega)]

/-- Witness for C3: six consecutive abnormal closures (code 1006) schedule
delays 3000, 6000, 9000, 12000, 15000 ms and then nothing. -/
theorem claim_C3_witness :
    (runCloses [1006, 1006, 1006, 1006, 1006, 1006] ⟨0⟩).2 =
      [some 3000, some 6000, some 9000, some 12000, some 15000, none] := by
  have h := claim_C3 [1006, 1006, 1006, 1006, 1006, 1006] (by decide)
  rw [h]
  decide

/-! ### C8 and C9: frame decoding and dispatch -/

/-- C8 as stated is false on the code: a `type = "error"` frame is only
logged with `console.error` (useWebSocket lines 115-117); it is never turned
into a domain event nor dispatched to any subscriber, exactly like an
unknown `type`.  Concretely, decoding an `error` frame dispatches nothing. -/
theorem claim_C8_counterexample :
    Ex.errorFrame.type = "error" ∧ decodeFrame true Ex.errorFrame = none := by
  decide

/-- C8 (amended): a decoded frame whose type discriminator is not
`"message"` and not `"online_status"` — including `"error"`, which is only
logged — produces no dispatch to any subscriber. -/
theorem claim_C8 (hasOnlineHandler : Bool) (f : RawFrame)
    (h1 : f.type ≠ "message") (h2 : f.type ≠ "online_status") :
    decodeFrame hasOnlineHandler f = none := by
  unfold decodeFrame
  rw [if_neg (by simpa using h1), if_neg (by simp [h2])]
  simp

/-- Witness for C8 (amended) at the concrete error frame. -/
theorem claim_C8_witness : decodeFrame true Ex.errorFrame = none :=
  claim_C8 true Ex.errorFrame (by decide) (by decide)

/-- C9: every message dispatched from a realtime `message` frame carries
`is_read = false`, whatever read-state field the frame itself carries, so
every realtime-pushed message enters the reconciliation and roster layers
unread. -/
theorem claim_C9 (hasOnlineHandler : Bool) (f : RawFrame) (m : Message)
    (h : decodeFrame hasOnlineHandler f = some (DomainEvent.messageArrived m)) :
    m.is_read = false := by
  unfold decodeFrame at h
  split at h
  · simp only [Option.some.injEq, DomainEvent.messageArrived.injEq] at h
    rw [← h]
    rfl
  · split at h
    · simp at h
    · split at h
      · simp at h
      · split at h
        · simp at h
        · simp at h

/-- Witness for C9 at a frame whose server payload says `is_read = true`. -/
theorem claim_C9_witness :
    (decodeMessageFrame Ex.readMessageFrame).is_read = false :=
  claim_C9 true Ex.readMessageFrame (decodeMessageFrame Ex.readMessageFrame)
    (by decide)

end WS

/-! ### C10: presence handling is idempotent -/

/-- C10: processing the same `PresenceChanged` event twice yields the same
state as processing it once — the online-set update is a set insert/erase
keyed by the identity id, and each matching roster entry's online flag is
overwritten with the event's value. -/
theorem claim_C10 (userId : String) (isOnline : Bool) (s : Sidebar.SidebarState) :
    Sidebar.handleOnlineStatus userId isOnline
        (Sidebar.handleOnlineStatus userId isOnline s) =
      Sidebar.handleOnlineStatus userId isOnline s := by
  unfold Sidebar.handleOnlineStatus
  simp only [Sidebar.SidebarState.mk.injEq]
  refine ⟨?_, ?_⟩
  · cases isOnline
    · simp [Finset.erase_idem]
    · simp [Finset.insert_idem]
  · rw [List.map_map]
    apply List.map_congr_left
    intro c _
    simp only [Function.comp_apply]
    by_cases hc : c.user.id == userId
    · simp [hc]
    · simp [hc]

/-! ### C4 and C5: roster unread counts and last-message guard -/

namespace Sidebar

theorem mem_sortContacts {l : List ChatContact} {c : ChatContact} :
    c ∈ sortContacts l ↔ c ∈ l :=
  (List.perm_insertionSort _ l).mem_iff

/-- With pairwise-distinct ids, any member bearing the searched id is the
one `find?` returns. -/
theorem find_unique_by_id {cid : String} {l : List ChatContact} {c0 : ChatContact}
    (hnd : (l.map (fun c => c.id)).Nodup)
    (hfind : l.find? (fun c => c.id == cid) = some c0) :
    ∀ c' ∈ l, c'.id = cid → c' = c0 := by
  induction l with
  | nil => simp at hfind
  | cons a l ih =>
      rw [List.map_cons, List.nodup_cons] at hnd
      intro c' hc' hcid
      by_cases ha : a.id = cid
      · rw [List.find?_cons_of_pos _ (by simpa using ha)] at hfind
        obtain rfl := Option.some.inj hfind
        rcases List.mem_cons.mp hc' with rfl | hmem
        · rfl
        · exact absurd (List.mem_map.mpr ⟨c', hmem, hcid.trans ha.symm⟩) hnd.1
      · rw [List.find?_cons_of_neg _ (by simpa using ha)] at hfind
        rcases List.mem_cons.mp hc' with rfl | hmem
        · exact absurd hcid ha
        · exact ih hnd.2 hfind c' hmem hcid

/-- With pairwise-distinct ids, after updating the first entry bearing the
searched id (with an id-preserving update), any member bearing that id is
the image of the entry `find?` returned. -/
theorem updateFirst_spec {cid : String} {f : ChatContact → ChatContact}
    {l : List ChatContact} {c0 : ChatContact}
    (hnd : (l.map (fun c => c.id)).Nodup)
    (hfind : l.find? (fun c => c.id == cid) = some c0) :
    ∀ c' ∈ updateFirst (fun c => c.id == cid) f l, c'.id = cid → c' = f c0 := by
  induction l with
  | nil => simp at hfind
  | cons a l ih =>
      rw [List.map_cons, List.nodup_cons] at hnd
      intro c' hc' hcid
      by_cases ha : a.id = cid
      · rw [List.find?_cons_of_pos _ (by simpa using ha)] at hfind
        obtain rfl := Option.some.inj hfind
        simp only [updateFirst] at hc'
        rw [if_pos (by simpa using ha)] at hc'
        rcases List.mem_cons.mp hc' with rfl | hmem
        · rfl
        · refine absurd (List.mem_map.mpr ⟨c', hmem, hcid.trans ha.symm⟩) hnd.1
      · rw [List.find?_cons_of_neg _ (by simpa using ha)] at hfind
        simp only [updateFirst] at hc'
        rw [if_neg (by simpa using ha)] at hc'
        rcases List.mem_cons.mp hc' with rfl | hmem
        · exact absurd hcid ha
        · exact ih hnd.2 hfind c' hmem hcid

end Sidebar

/-- C5: for a roster entry storing a last message, an arriving message for
that counterpart replaces the stored last message exactly when its
timestamp is greater-or-equal; a strictly older message never replaces it. -/
theorem claim_C5 (currentUserId selectedUserId : Option String)
    (onlineUsers : Finset String) (m : Message) (prev : List Sidebar.ChatContact)
    (cid : String) (c0 : Sidebar.ChatContact) (lm : Message)
    (hcid : Sidebar.contactIdOf currentUserId m = some cid)
    (hnd : (prev.map (fun c => c.id)).Nodup)
    (hfind : prev.find? (fun c => c.id == cid) = some c0)
    (hlm : c0.lastMessage = some lm) :
    ∀ c' ∈ Sidebar.handleWebSocketMessage currentUserId selectedUserId
        onlineUsers m prev,
      c'.id = cid →
      c'.lastMessage = if lm.created_at ≤ m.created_at then some m else some lm := by
  intro c' hc' hcid'
  unfold Sidebar.handleWebSocketMessage at hc'
  simp only [hcid, hfind, hlm] at hc'
  by_cases hle : lm.created_at ≤ m.created_at
  · rw [if_pos (Or.inl hle)] at hc'
    rw [Sidebar.mem_sortContacts] at hc'
    have := Sidebar.updateFirst_spec hnd hfind c' hc' hcid'
    rw [this, if_pos hle]
  · have hcond : ¬ (lm.created_at ≤ m.created_at ∨ m.created_at = lm.created_at) := by
      rintro (h | h)
      · exact hle h
      · exact hle (le_of_eq h.symm)
    rw [if_neg hcond] at hc'
    rw [if_neg hle]
    by_cases hb : ((!(some m.sender_id == currentUserId) && !m.is_read) &&
        !(selectedUserId == some cid)) = true
    · rw [if_pos hb] at hc'
      rw [Sidebar.mem_sortContacts] at hc'
      have := Sidebar.updateFirst_spec hnd hfind c' hc' hcid'
      rw [this]
      exact hlm
    · rw [if_neg hb] at hc'
      rw [Sidebar.mem_sortContacts] at hc'
      have := Sidebar.find_unique_by_id hnd hfind c' hc' hcid'
      rw [this]
      exact hlm

/-- Witness for C5: the out-of-order `olderMsg` (stamped 40) does not
replace the stored last message (stamped 100); only the unread count moves. -/
theorem claim_C5_witness :
    Ex.bumpedContactU2.lastMessage =
      if Ex.inboundMsg.created_at ≤ Ex.olderMsg.created_at
      then some Ex.olderMsg else some Ex.inboundMsg :=
  claim_C5 (some "u1") none ∅ Ex.olderMsg [Ex.contactU2] "u2" Ex.contactU2
    Ex.inboundMsg (by decide) (by decide) (by decide) (by decide)
    Ex.bumpedContactU2 (by decide) (by decide)

/-- C4: a roster entry's unread count is reset to exactly 0 the instant its
counterpart becomes the active conversation; and while a counterpart is not
active, an arriving message for it increments the entry's unread count by
one exactly when the message is inbound (sender is not the current user)
and marked unread, leaving it unchanged otherwise. -/
theorem claim_C4 :
    (∀ (selectedUserId : String) (contacts : List Sidebar.ChatContact),
      ∀ c' ∈ Sidebar.clearUnreadOnSelect selectedUserId contacts,
        c'.id = selectedUserId → c'.unreadCount = 0) ∧
    (∀ (currentUserId selectedUserId : Option String) (onlineUsers : Finset String)
        (m : Message) (prev : List Sidebar.ChatContact) (cid : String)
        (c0 : Sidebar.ChatContact),
      Sidebar.contactIdOf currentUserId m = some cid →
      selectedUserId ≠ some cid →
      (prev.map (fun c => c.id)).Nodup →
      prev.find? (fun c => c.id == cid) = some c0 →
      ∀ c' ∈ Sidebar.handleWebSocketMessage currentUserId selectedUserId
          onlineUsers m prev,
        c'.id = cid →
        c'.unreadCount = c0.unreadCount +
          (if (!(some m.sender_id == currentUserId) && !m.is_read) = true
           then 1 else 0)) := by
  constructor
  · intro sel contacts c' hc' hid
    unfold Sidebar.clearUnreadOnSelect at hc'
    obtain ⟨c, hcmem, hceq⟩ := List.mem_map.mp hc'
    by_cases hcs : (c.id == sel) = true
    · rw [if_pos hcs] at hceq
      rw [← hceq]
    · rw [if_neg hcs] at hceq
      subst hceq
      exact absurd (by simpa using hid) hcs
  · intro cuid sel ou m prev cid c0 hcid hsel hnd hfind c' hc' hcid'
    have hselb : (sel == some cid) = false := by simpa using hsel
    unfold Sidebar.handleWebSocketMessage at hc'
    simp only [hcid, hfind, hselb, Bool.not_false, Bool.and_true] at hc'
    by_cases hcond :
        ((match c0.lastMessage with | some lm => lm.created_at | none => 0) ≤
            m.created_at ∨
          m.created_at =
            (match c0.lastMessage with | some lm => lm.created_at | none => 0))
    · rw [if_pos hcond] at hc'
      rw [Sidebar.mem_sortContacts] at hc'
      have hthis := Sidebar.updateFirst_spec hnd hfind c' hc' hcid'
      rw [hthis]
      by_cases hu : (!(some m.sender_id == cuid) && !m.is_read) = true
      · simp [hu]
      · simp [hu]
    · rw [if_neg hcond] at hc'
      by_cases hu : (!(some m.sender_id == cuid) && !m.is_read) = true
      · rw [if_pos hu] at hc'
        rw [Sidebar.mem_sortContacts] at hc'
        have hthis := Sidebar.updateFirst_spec hnd hfind c' hc' hcid'
        rw [hthis]
        simp [hu]
      · rw [if_neg hu] at hc'
        rw [Sidebar.mem_sortContacts] at hc'
        have hthis := Sidebar.find_unique_by_id hnd hfind c' hc' hcid'
        rw [hthis]
        simp [hu]

/-- Witness for C4: selecting `u2` zeroes its unread count, and the inbound
unread `inFlightMsg` while `u2` is not active bumps it from 2 to 3. -/
theorem claim_C4_witness :
    Ex.clearedContactU2.unreadCount = 0 ∧
    Ex.updatedContactU2.unreadCount = Ex.contactU2.unreadCount +
      (if (!(some Ex.inFlightMsg.sender_id == some "u1") && !Ex.inFlightMsg.is_read) = true
       then 1 else 0) := by
  constructor
  · exact claim_C4.1 "u2" [Ex.contactU2] Ex.clearedContactU2 (by decide) (by decide)
  · exact claim_C4.2 (some "u1") none ∅ Ex.inFlightMsg [Ex.contactU2] "u2"
      Ex.contactU2 (by decide) (by decide) (by decide) (by decide)
      Ex.updatedContactU2 (by decide) (by decide)

/-! ### C6 and C7: send failure handling -/

namespace ChatWindow

theorem startsWithTemp_false_of_ne {l : List Message}
    (h : ∀ mm ∈ l, startsWithTemp mm.id = false) {t : Message}
    (ht : startsWithTemp t.id = true) : ∀ mm ∈ l, mm.id ≠ t.id := by
  intro mm hmm heq
  rw [← heq] at ht
  rw [h mm hmm] at ht
  exact Bool.false_ne_true ht

theorem rollbackSend_eq_self {l : List Message}
    (h : ∀ mm ∈ l, startsWithTemp mm.id = false) : rollbackSend l = l := by
  rw [rollbackSend, List.filter_eq_self]
  intro mm hmm
  rw [h mm hmm]
  rfl

/-- C6: evaluation of `sendMessage` at the failing input.  When the media
upload rejects, the send is aborted before any content reaches the backend
(`submitted = none`) and no placeholder is in the list, as the claim says —
but the typed text is NOT restored: the inner catch (lines 177-182) returns
after the input was already cleared (line 161) without reaching the outer
catch that would restore it, so the input ends empty instead of `\"hi\"`. -/
theorem claim_C6 :
    (sendMessage (some "u2") (some "u1") "hi" UploadOutcome.failed Ex.tempMsg
        SendOutcome.failed [] { messages := [], messageText := "hi" }).submitted
        = none ∧
    (sendMessage (some "u2") (some "u1") "hi" UploadOutcome.failed Ex.tempMsg
        SendOutcome.failed [] { messages := [], messageText := "hi" }).state.messages
        = [] ∧
    (sendMessage (some "u2") (some "u1") "hi" UploadOutcome.failed Ex.tempMsg
        SendOutcome.failed [] { messages := [], messageText := "hi" }).state.messageText
        = "" ∧
    (sendMessage (some "u2") (some "u1") "hi" UploadOutcome.failed Ex.tempMsg
        SendOutcome.failed [] { messages := [], messageText := "hi" }).state.messageText
        ≠ "hi" := by
  refine ⟨rfl, rfl, rfl, ?_⟩
  decide

/-- C7 as stated is false on the code: the rollback is not atomic with
respect to concurrent realtime arrivals.  Concretely, a send from the empty
list fails while the inbound push `m9` is processed in flight; the final
list is `[m9]`, not the pre-send empty list. -/
theorem claim_C7_counterexample :
    (sendMessage (some "u2") (some "u1") "hi" UploadOutcome.noFile Ex.tempMsg
        SendOutcome.failed [Ex.inFlightMsg]
        { messages := [], messageText := "hi" }).state.messages ≠ [] := by
  decide

/-- C7 (amended): a failed backend submission removes every
placeholder-tagged entry and restores the typed content to the input; when
no realtime push was processed during the in-flight request and no
pre-send entry bears a placeholder-tagged id, the message list afterwards
equals the pre-send list exactly. -/
theorem claim_C7 (userId currentUserId : Option String) (messageContent : String)
    (upload : UploadOutcome) (hup : upload ≠ UploadOutcome.failed)
    (tempMsg : Message) (st : ChatState)
    (htemp : ∀ mm ∈ st.messages, startsWithTemp mm.id = false)
    (htm : startsWithTemp tempMsg.id = true) :
    (sendMessage userId currentUserId messageContent upload tempMsg
        SendOutcome.failed [] st).state.messages = st.messages ∧
    (sendMessage userId currentUserId messageContent upload tempMsg
        SendOutcome.failed [] st).state.messageText = messageContent := by
  have hne : ∀ mm ∈ st.messages, mm.id ≠ tempMsg.id :=
    startsWithTemp_false_of_ne htemp htm
  have hopt : optimisticInsert tempMsg st.messages = st.messages ++ [tempMsg] := by
    rw [optimisticInsert, if_neg]
    rw [any_id_eq_false_of_forall hne]
    simp
  have hroll : rollbackSend (st.messages ++ [tempMsg]) = st.messages := by
    rw [rollbackSend, List.filter_append]
    rw [show (st.messages.filter (fun m => !startsWithTemp m.id)) = st.messages from
      rollbackSend_eq_self htemp]
    simp [htm]
  cases upload with
  | failed => exact absurd rfl hup
  | noFile =>
      unfold sendMessage
      simp only [List.foldl_nil, hopt, hroll]
      exact ⟨trivial, trivial⟩
  | ok url contentType =>
      unfold sendMessage
      simp only [List.foldl_nil, hopt, hroll]
      exact ⟨trivial, trivial⟩

/-- Witness for C7 (amended): a failed send from `[inboundMsg]` with no
in-flight arrivals restores the list and the typed text. -/
theorem claim_C7_witness :
    (sendMessage (some "u2") (some "u1") "hi" UploadOutcome.noFile Ex.tempMsg
        SendOutcome.failed [] { messages := [Ex.inboundMsg], messageText := "hi" }).state.messages
        = [Ex.inboundMsg] ∧
    (sendMessage (some "u2") (some "u1") "hi" UploadOutcome.noFile Ex.tempMsg
        SendOutcome.failed [] { messages := [Ex.inboundMsg], messageText := "hi" }).state.messageText
        = "hi" :=
  claim_C7 (some "u2") (some "u1") "hi" UploadOutcome.noFile (by decide)
    Ex.tempMsg { messages := [Ex.inboundMsg], messageText := "hi" }
    (by decide) (by decide)

end ChatWindow

end RTChat
